import Mathlib

/-!
Shallow embedding of the enrollment-bot core (src/main.py) and proofs of the
spec claims about it.

The embedding models:
  * the persistent SQLite store (tables `enrollments` and `group_limits`);
  * the admission controller `try_enroll` (BEGIN IMMEDIATE; COUNT; limit
    lookup; conditional INSERT), including which database connection each
    read/write runs on, since one claim is about transaction scope;
  * schema initialisation `init_db`;
  * the dialogue handlers (`set_phone_from_contact`, `set_phone_manual`,
    `set_name_full`, `set_age`, `confirm`) as pure step functions on a
    per-user session, with outbound messages (text plus reply-keyboard
    button labels) returned explicitly.

Python strings are Lean `String`s; `str.split()` / `str.split(" ")` /
`str.strip()` are re-implemented below with Python's semantics.
-/

namespace Academy

/-- `AGE_GROUPS` from main.py (line 32). -/
def AGE_GROUPS : List String := ["9–11 лет", "12–14 лет"]

/-- `SCHEDULE` from main.py (lines 33–36). -/
def SCHEDULE : List (String × String) :=
  [("9–11 лет", "воскресенье 09:30–12:30 или 15:30–18:30"),
   ("12–14 лет", "воскресенье 12:30–15:30")]

/-- `DEFAULT_GROUP_LIMIT` (line 37); the configured default, 10 unless
overridden in the environment. -/
def DEFAULT_GROUP_LIMIT : Nat := 10

/-- One row of the `enrollments` table (schema at lines 56–64; the
autoincrement id and is left implicit: rows are appended, position = id
order). -/
structure EnrollmentRow where
  child_full : String
  age_group : String
  phone : Option String
  tg_user_id : Int
  tg_username : Option String
  created_at : String
deriving Repr, DecidableEq

/-- The initialised database: the `enrollments` table as an append-ordered
list of rows and the `group_limits` table as an association list keyed by
age group (`age_group` is the PRIMARY KEY). -/
structure DB where
  enrollments : List EnrollmentRow
  group_limits : List (String × Nat)
deriving Repr, DecidableEq

/-- `count_in_group` (lines 125–130): `SELECT COUNT(*) FROM enrollments
WHERE age_group=?`. -/
def count_in_group (db : DB) (age_group : String) : Nat :=
  (db.enrollments.filter (fun r => r.age_group = age_group)).length

/-- `get_group_limit` (lines 133–139): `SELECT limit_value FROM group_limits
WHERE age_group=?`, falling back to `DEFAULT_GROUP_LIMIT` when no row
exists.  (It opens its own fresh connection; the connection is tracked in
`try_enroll`'s action trace below.) -/
def get_group_limit (db : DB) (age_group : String) : Nat :=
  match db.group_limits.lookup age_group with
  | some v => v
  | none => DEFAULT_GROUP_LIMIT

/-- `get_remaining` (lines 142–143): `max(limit - count, 0)`; Nat truncated
subtraction is exactly the clamped difference. -/
def get_remaining (db : DB) (age_group : String) : Nat :=
  get_group_limit db age_group - count_in_group db age_group

/-- Which SQLite connection a database action runs on during one
`try_enroll` call: `txn` is the connection opened by `try_enroll` itself
(the one that issued `BEGIN IMMEDIATE`); `fresh` is any connection opened
separately by a helper during the call. -/
inductive DbConn
  | txn
  | fresh
deriving Repr, DecidableEq

/-- Observable database actions of one `try_enroll` call, tagged with the
connection that performs them. -/
inductive DbAction
  | beginImmediate (conn : DbConn)
  | readCount (conn : DbConn) (age_group : String)
  | readLimit (conn : DbConn) (age_group : String)
  | insertRow (conn : DbConn) (row : EnrollmentRow)
  | commit (conn : DbConn)
deriving Repr, DecidableEq

/-- `try_enroll` (lines 146–169).  On connection `c` (tracked as
`DbConn.txn`): `BEGIN IMMEDIATE`, read the COUNT for the group; then call
`get_group_limit`, which opens a *separate* connection (tracked as
`DbConn.fresh`) for its SELECT; if `current >= limit` return `false`
leaving the table unchanged (the `with` block commits the empty
transaction); else INSERT the row and return `true` (commit on exit).
Returns (result, database after, action trace). -/
def try_enroll (db : DB) (child_full age_group : String) (phone : Option String)
    (user_id : Int) (username : Option String) (created_at : String) :
    Bool × DB × List DbAction :=
  let current := count_in_group db age_group
  let limit_v := get_group_limit db age_group
  if current ≥ limit_v then
    (false, db,
      [DbAction.beginImmediate DbConn.txn,
       DbAction.readCount DbConn.txn age_group,
       DbAction.readLimit DbConn.fresh age_group,
       DbAction.commit DbConn.txn])
  else
    let row : EnrollmentRow :=
      ⟨child_full, age_group, phone, user_id, username, created_at⟩
    (true, { db with enrollments := db.enrollments ++ [row] },
      [DbAction.beginImmediate DbConn.txn,
       DbAction.readCount DbConn.txn age_group,
       DbAction.readLimit DbConn.fresh age_group,
       DbAction.insertRow DbConn.txn row,
       DbAction.commit DbConn.txn])

/-- Does a trace action read the group limit on the transaction's own
connection?  (Vacuously true for every other kind of action.) -/
def limitReadOnTxnConn : DbAction → Bool
  | DbAction.readLimit c _ => c == DbConn.txn
  | _ => true

/-- Does a trace action read the enrollment count on the transaction's own
connection?  (Vacuously true for every other kind of action.) -/
def countReadOnTxnConn : DbAction → Bool
  | DbAction.readCount c _ => c == DbConn.txn
  | _ => true

/-- Does a trace action insert on the transaction's own connection?
(Vacuously true for every other kind of action.) -/
def insertOnTxnConn : DbAction → Bool
  | DbAction.insertRow c _ => c == DbConn.txn
  | _ => true

/-- One admission request: the per-caller arguments of `try_enroll` other
than the contended age group. -/
structure EnrollReq where
  child_full : String
  phone : Option String
  user_id : Int
  username : Option String
  created_at : String
deriving Repr, DecidableEq

/-- Run a sequence of `try_enroll` calls against one age group, threading
the database; returns the final database and how many calls returned
`true`. -/
def runEnrolls (age_group : String) (db : DB) : List EnrollReq → DB × Nat
  | [] => (db, 0)
  | r :: rs =>
    let t := try_enroll db r.child_full age_group r.phone r.user_id r.username r.created_at
    let rest := runEnrolls age_group t.2.1 rs
    (rest.1, (if t.1 then 1 else 0) + rest.2)

/-! ## Python string primitives -/

/-- Splitter for Python `str.split(sep)`-style splitting on every character
satisfying `p`, keeping empty pieces (the accumulator holds the current
piece reversed). -/
def splitCharsAux (p : Char → Bool) : List Char → List Char → List String
  | [], acc => [String.mk acc.reverse]
  | c :: cs, acc =>
    if p c then String.mk acc.reverse :: splitCharsAux p cs []
    else splitCharsAux p cs (c :: acc)

/-- Python `s.split(" ")`: split at every single space, empty pieces kept. -/
def pySplitOnSpace (s : String) : List String :=
  splitCharsAux (fun c => c == ' ') s.data []

/-- Python `s.split()` (no argument): split on whitespace runs, empty pieces
discarded. -/
def pySplit (s : String) : List String :=
  (splitCharsAux Char.isWhitespace s.data []).filter (fun t => t ≠ "")

/-- Python `" ".join(ts)`. -/
def joinSpace : List String → String
  | [] => ""
  | [t] => t
  | t :: ts => t ++ " " ++ joinSpace ts

/-- Python `s.strip()`: drop leading and trailing whitespace. -/
def pyStrip (s : String) : String :=
  String.mk (((s.data.dropWhile Char.isWhitespace).reverse.dropWhile
    Char.isWhitespace).reverse)

/-- Python `str.isdigit` restricted to ASCII digits (the characters the
phone regexp `\d` admits). -/
def digitCount (s : String) : Nat :=
  (s.data.filter Char.isDigit).length

/-- One character of the manual-phone regexp class `[\d\s\+\-\(\)]`
(line 220). -/
def is_phone_char (c : Char) : Bool :=
  c.isDigit || c.isWhitespace || c == '+' || c == '-' || c == '(' || c == ')'

/-- The router filter `F.text.regexp(r"^[\d\s\+\-\(\)]+$")` on
`set_phone_manual` (line 220): nonempty and every character in the class. -/
def manual_phone_re (t : String) : Bool :=
  !t.data.isEmpty && t.data.all is_phone_char

/-- The spec-side well-formedness of a stored phone: only digits and
formatting characters, and at least 10 digits.  (Stated from the spec's
data-model sentence; used to check the claimed invariant against the
code.) -/
def phone_ok (p : String) : Bool :=
  p.data.all is_phone_char && decide (10 ≤ digitCount p)

/-! ## Dialogue state machine -/

/-- The FSM step of a per-user session: `idle` is "no active state"
(`state.clear()`); the other four are the `Enroll` states (lines
183–187). -/
inductive Step
  | idle
  | awaitingPhone
  | awaitingName
  | awaitingAgeGroup
  | awaitingConfirm
deriving Repr, DecidableEq

/-- The accumulated FSM data (`state.update_data` keys). -/
structure SessionData where
  phone : Option String
  child_full : Option String
  age_group : Option String
deriving Repr, DecidableEq

/-- A per-user dialogue session: current step plus accumulated data. -/
structure Session where
  step : Step
  data : SessionData
deriving Repr, DecidableEq

/-- `state.clear()`: no step, no data. -/
def clearedSession : Session := ⟨Step.idle, ⟨none, none, none⟩⟩

/-- An outbound message: its text and the labels of the reply-keyboard
buttons attached to it (empty for `ReplyKeyboardRemove` or no markup). -/
structure OutMsg where
  text : String
  buttons : List String
deriving Repr, DecidableEq

/-- `main_menu_kb` button labels (lines 92–98). -/
def main_menu_buttons : List String :=
  ["Записаться на пробное занятие", "Задать вопрос", "Контакты"]

/-- `phone_kb` button labels (lines 101–105). -/
def phone_buttons : List String := ["📱 Поделиться контактом"]

/-- `confirm_kb` button labels (lines 108–113). -/
def confirm_buttons : List String := ["✅ Подтвердить", "✏️ Изменить"]

/-- The age groups `age_kb_dynamic` offers as options (line 173): only
those with remaining seats. -/
def age_kb_options (db : DB) : List String :=
  AGE_GROUPS.filter (fun ag => decide (0 < get_remaining db ag))

/-- `age_kb_dynamic` (lines 172–180): the option buttons, or a single
back-to-menu button when no group has seats left. -/
def age_kb_dynamic (db : DB) : List String :=
  let options := age_kb_options db
  if options.isEmpty then ["⬅️ В меню"] else options

/-- A shared Telegram contact (the fields `set_phone_from_contact` reads). -/
structure Contact where
  phone_number : String
  user_id : Option Int
deriving Repr, DecidableEq

/-- Prompt text asking for the child's name (lines 215 and 229). -/
def namePromptText : String :=
  "Введите имя и фамилию ребёнка в одной строке Например: Иван Петров"

/-- `set_phone_from_contact` (lines 209–217), for a session in
`Enroll.phone`: accept the contact's `phone_number` verbatim when the
contact is the sender's own (or carries no user id), advance to
`Enroll.name_full`; otherwise stay and ask for the sender's own contact. -/
def set_phone_from_contact (s : Session) (sender_id : Int) (c : Contact) :
    Session × List OutMsg :=
  if c.user_id = none ∨ c.user_id = some sender_id then
    (⟨Step.awaitingName, { s.data with phone := some c.phone_number }⟩,
     [⟨namePromptText, []⟩])
  else
    (s, [⟨"Пожалуйста, поделитесь своим контактом.", []⟩])

/-- Rejection text for a too-short manual phone (line 225). -/
def phoneTooShortText : String :=
  "Номер телефона слишком короткий. Введите корректный номер."

/-- Re-prompt of the catch-all `invalid_phone` handler (line 234). -/
def invalidPhoneText : String :=
  "Пожалуйста, поделитесь контактом или введите номер телефона.\n\nФормат: +79001234567 или 89001234567"

/-- `set_phone_manual` (lines 221–229), the handler body after the regexp
filter passed: strip the text, count its digits; fewer than 10 digits is
rejected (session unchanged), otherwise store the stripped string and
advance to `Enroll.name_full`. -/
def set_phone_manual (s : Session) (t : String) : Session × List OutMsg :=
  let phone := pyStrip t
  if digitCount phone < 10 then
    (s, [⟨phoneTooShortText, []⟩])
  else
    (⟨Step.awaitingName, { s.data with phone := some phone }⟩,
     [⟨namePromptText, []⟩])

/-- Dispatch of a text message in `Enroll.phone` between `set_phone_manual`
(regexp filter, line 220) and the catch-all `invalid_phone` (lines
232–234). -/
def phone_text_step (s : Session) (t : String) : Session × List OutMsg :=
  if manual_phone_re t then set_phone_manual s t
  else (s, [⟨invalidPhoneText, []⟩])

/-- The apology sent from `set_name_full` when every group is full
(line 250). -/
def allFullNameText : String :=
  "К сожалению, сейчас во всех группах мест нет. Напишите нам или попробуйте позже."

/-- The group-choice message of `set_name_full` (lines 253–257): header plus
one line per group with seats, showing its schedule. -/
def chooseGroupScheduleText (db : DB) : String :=
  String.intercalate "\n"
    ("Выберите возрастную группу" ::
      (AGE_GROUPS.filter (fun ag => decide (0 < get_remaining db ag))).map
        (fun ag => ag ++ " — " ++ ((SCHEDULE.lookup ag).getD "")))

/-- Re-prompt for a name without a surname (line 242). -/
def nameRejectText : String :=
  "Пожалуйста, укажите имя и фамилию. Например: Иван Петров"

/-- `set_name_full` (lines 237–257): normalise the text with
`" ".join(text.split())`, split that on single spaces; fewer than two parts
is rejected (session unchanged, re-prompt); otherwise store
`first + " " + rest joined`, set the step to `Enroll.age_group`, then
either apologise (every group full) or present the per-group choices. -/
def set_name_full (db : DB) (s : Session) (input : String) :
    Session × List OutMsg :=
  let text := joinSpace (pySplit input)
  let parts := pySplitOnSpace text
  match parts with
  | p0 :: p1 :: rest =>
    let last := joinSpace (p1 :: rest)
    let s2 : Session :=
      ⟨Step.awaitingAgeGroup, { s.data with child_full := some (p0 ++ " " ++ last) }⟩
    if AGE_GROUPS.all (fun ag => get_remaining db ag == 0) then
      (s2, [⟨allFullNameText, main_menu_buttons⟩])
    else
      (s2, [⟨chooseGroupScheduleText db, age_kb_dynamic db⟩])
  | _ =>
    (s, [⟨nameRejectText, []⟩])

/-- The data-review text `set_age` sends (lines 265–270). -/
def previewText (cf ag phone_info : String) : String :=
  "Проверьте данные:\n👦 Имя и фамилия: " ++ cf ++
  "\n🎯 Возраст: " ++ ag ++ "\n📱 Телефон: " ++ phone_info

/-- `set_age` (lines 260–271), guarded by `F.text.in_(AGE_GROUPS)`: record
the chosen group and move to `Enroll.confirm`, consulting no capacity
information at all.  `none` when the guard does not fire (text is not a
group label) or when `child_full` is absent (the code would then raise
`KeyError`). -/
def set_age (s : Session) (t : String) : Option (Session × List OutMsg) :=
  if AGE_GROUPS.contains t then
    match s.data.child_full with
    | some cf =>
      let s2 : Session := ⟨Step.awaitingConfirm, { s.data with age_group := some t }⟩
      some (s2, [⟨previewText cf t (s.data.phone.getD "не указан"), confirm_buttons⟩])
    | none => none
  else none

/-- Success message after a committed enrollment (line 318). -/
def enrolledText : String := "✅ Заявка отправлена! Мы с вами свяжемся."

/-- Apology sent from `confirm` when admission failed and every group is
full (line 289). -/
def allFullConfirmText : String :=
  "Сейчас во всех группах мест нет. Попробуйте позже или свяжитесь с нами."

/-- The re-choice message of `confirm` (lines 291–295): header plus one line
per group with seats, showing the remaining count. -/
def chooseGroupLeftText (db : DB) : String :=
  String.intercalate "\n"
    ("Выберите возрастную группу" ::
      (AGE_GROUPS.filter (fun ag => decide (0 < get_remaining db ag))).map
        (fun ag => ag ++ " — осталось мест: " ++ toString (get_remaining db ag)))

/-- Everything one `confirm` call produces: the database afterwards, the
session afterwards, the messages sent to the user, whether the admin
notification was delivered, and how many warnings were logged. -/
structure ConfirmOutcome where
  db : DB
  session : Session
  userMsgs : List OutMsg
  adminNotified : Bool
  warnings : Nat
deriving Repr, DecidableEq

/-- `confirm` (lines 274–319), for a session in `Enroll.confirm` on the
confirm button.  Reads `child_full` and `age_group` from the FSM data
(`KeyError`, hence `none`, if absent), calls `try_enroll`; on failure
either apologises (all groups full — the session is left as it was) or
re-presents the groups and moves back to `Enroll.age_group`; on success,
when an admin id is configured, tries to notify the admin — `notifyOk`
says whether that send succeeds; a failure is caught and logged
(`warnings`), after which the success message is sent and the state is
cleared exactly as when the send succeeds. -/
def confirm (db : DB) (s : Session) (user_id : Int) (username : Option String)
    (now : String) (adminId : Option Int) (notifyOk : Bool) :
    Option ConfirmOutcome :=
  match s.data.child_full, s.data.age_group with
  | some cf, some ag =>
    let t := try_enroll db cf ag s.data.phone user_id username now
    let db2 := t.2.1
    if t.1 then
      match adminId with
      | some _ =>
        if notifyOk then
          some ⟨db2, clearedSession, [⟨enrolledText, main_menu_buttons⟩], true, 0⟩
        else
          some ⟨db2, clearedSession, [⟨enrolledText, main_menu_buttons⟩], false, 1⟩
      | none =>
        some ⟨db2, clearedSession, [⟨enrolledText, main_menu_buttons⟩], false, 0⟩
    else
      if AGE_GROUPS.all (fun g => get_remaining db2 g == 0) then
        some ⟨db2, s, [⟨allFullConfirmText, main_menu_buttons⟩], false, 0⟩
      else
        some ⟨db2, ⟨Step.awaitingAgeGroup, s.data⟩,
          [⟨chooseGroupLeftText db2, age_kb_dynamic db2⟩], false, 0⟩
  | _, _ => none

/-! ## Schema initialisation -/

/-- The raw store `init_db` operates on: each table is `none` while absent
(`CREATE TABLE IF NOT EXISTS` materialises it), and the age-group index is
a flag (`CREATE INDEX IF NOT EXISTS`). -/
structure Store where
  enrollments : Option (List EnrollmentRow)
  group_limits : Option (List (String × Nat))
  idx_enrollments_age : Bool
deriving Repr, DecidableEq

/-- The body of the seeding loop of `init_db` (lines 79–85): insert
`(ag, DEFAULT_GROUP_LIMIT)` only when no `group_limits` row for `ag`
exists. -/
def seedGroup (gl : List (String × Nat)) (ag : String) : List (String × Nat) :=
  if (gl.lookup ag).isSome then gl else gl ++ [(ag, DEFAULT_GROUP_LIMIT)]

/-- `init_db` (lines 52–85): create both tables if absent (leaving existing
rows untouched), create the age-group index if absent, and seed a
`group_limits` row for every age group that lacks one. -/
def init_db (s : Store) : Store :=
  { enrollments := some (s.enrollments.getD [])
    group_limits := some (AGE_GROUPS.foldl seedGroup (s.group_limits.getD []))
    idx_enrollments_age := true }

/-! ## Auxiliary predicates and concrete fixtures -/

/-- The claimed phone invariant over a whole database: every persisted row
with a phone has a well-formed one. -/
def db_phones_ok (db : DB) : Bool :=
  db.enrollments.all (fun r =>
    match r.phone with
    | some p => phone_ok p
    | none => true)

/-- A database with one group at limit 1 and plenty of room in the other:
fixture for concrete instantiations. -/
def dbOneSeat : DB := ⟨[], [("9–11 лет", 1), ("12–14 лет", 10)]⟩

/-- A database whose configured limits are both 0 (every group full):
fixture for the all-groups-full scenarios. -/
def dbAllFull : DB := ⟨[], [("9–11 лет", 0), ("12–14 лет", 0)]⟩

/-- A completely absent store: nothing has been created yet. -/
def emptyStore : Store := ⟨none, none, false⟩

/-- A fresh session in the phone step (right after `start_enroll`). -/
def phoneSession : Session := ⟨Step.awaitingPhone, ⟨none, none, none⟩⟩

/-- A session that has reached the confirmation step with all fields set. -/
def confirmSession : Session :=
  ⟨Step.awaitingConfirm,
   ⟨some "+79001234567", some "Иван Петров", some "9–11 лет"⟩⟩

/-- Two admission requests against the same group: fixture for the capacity
run. -/
def twoReqs : List EnrollReq :=
  [⟨"Иван Петров", some "+79001234567", 42, some "ivan", "2026-10-12T00:00:00"⟩,
   ⟨"Пётр Иванов", some "+79001234568", 43, none, "2026-10-12T00:00:01"⟩]

/-- The session produced by sharing one's own contact card whose
`phone_number` is the 3-digit string "123". -/
def contactSession : Session :=
  (set_phone_from_contact phoneSession 42 ⟨"123", some 42⟩).1

/-- `contactSession` after entering the child's name. -/
def contactSession2 : Session :=
  (set_name_full dbOneSeat contactSession "Иван Петров").1

/-- `contactSession2` after choosing an age group (the handler fires, so the
`Option` is some; the default is never used). -/
def contactSession3 : Session :=
  ((set_age contactSession2 "9–11 лет").map Prod.fst).getD clearedSession

/-! ## Theorems -/

/-- `try_enroll` never touches the `group_limits` table. -/
theorem try_enroll_group_limits (db : DB) (cf ag : String) (p : Option String)
    (uid : Int) (un : Option String) (now : String) :
    (try_enroll db cf ag p uid un now).2.1.group_limits = db.group_limits := by
  by_cases h : get_group_limit db ag ≤ count_in_group db ag <;> simp [try_enroll, h]

/-- The group limit only depends on the `group_limits` table. -/
theorem get_group_limit_congr {db1 db2 : DB} (ag : String)
    (h : db1.group_limits = db2.group_limits) :
    get_group_limit db1 ag = get_group_limit db2 ag := by
  simp [get_group_limit, h]

/-- `try_enroll` returns `true` exactly when the group was under its
limit. -/
theorem try_enroll_true_iff (db : DB) (cf ag : String) (p : Option String)
    (uid : Int) (un : Option String) (now : String) :
    (try_enroll db cf ag p uid un now).1 = true ↔
      count_in_group db ag < get_group_limit db ag := by
  by_cases h : get_group_limit db ag ≤ count_in_group db ag <;>
    simp [try_enroll, h]
  all_goals omega

/-- One `try_enroll` call grows the group's count by 1 on success and
leaves it alone on failure. -/
theorem count_try_enroll (db : DB) (cf ag : String) (p : Option String)
    (uid : Int) (un : Option String) (now : String) :
    count_in_group (try_enroll db cf ag p uid un now).2.1 ag =
      count_in_group db ag +
        (if (try_enroll db cf ag p uid un now).1 then 1 else 0) := by
  by_cases h : count_in_group db ag ≥ get_group_limit db ag
  · simp [try_enroll, h]
  · simp only [try_enroll]
    rw [if_neg h]
    simp [count_in_group, List.filter_append]

/-- Running a request sequence: the final count is the initial count plus
the number of successful calls, and it never exceeds the limit. -/
theorem runEnrolls_count (ag : String) (L : Nat) :
    ∀ (reqs : List EnrollReq) (db : DB), get_group_limit db ag = L →
      count_in_group db ag ≤ L →
      count_in_group (runEnrolls ag db reqs).1 ag =
          count_in_group db ag + (runEnrolls ag db reqs).2 ∧
        count_in_group (runEnrolls ag db reqs).1 ag ≤ L := by
  intro reqs
  induction reqs with
  | nil => intro db hL hc; simpa [runEnrolls] using hc
  | cons r rs ih =>
    intro db hL hc
    have hlim2 : get_group_limit
        (try_enroll db r.child_full ag r.phone r.user_id r.username r.created_at).2.1 ag = L := by
      rw [get_group_limit_congr ag
        (try_enroll_group_limits db r.child_full ag r.phone r.user_id r.username r.created_at)]
      exact hL
    have hcount2 := count_try_enroll db r.child_full ag r.phone r.user_id r.username r.created_at
    have hle2 : count_in_group
        (try_enroll db r.child_full ag r.phone r.user_id r.username r.created_at).2.1 ag ≤ L := by
      by_cases ht : (try_enroll db r.child_full ag r.phone r.user_id r.username r.created_at).1 = true
      · have hlt := (try_enroll_true_iff db r.child_full ag r.phone r.user_id r.username r.created_at).mp ht
        rw [hcount2, ht]
        simp only [if_true]
        omega
      · have ht' : (try_enroll db r.child_full ag r.phone r.user_id r.username r.created_at).1 = false := by
          simpa using ht
        rw [hcount2, ht']
        simpa using hc
    obtain ⟨ih1, ih2⟩ := ih
      (try_enroll db r.child_full ag r.phone r.user_id r.username r.created_at).2.1 hlim2 hle2
    constructor
    · simp only [runEnrolls]
      rw [ih1, hcount2]
      by_cases ht : (try_enroll db r.child_full ag r.phone r.user_id r.username r.created_at).1 = true <;>
        simp [ht]
      all_goals omega
    · simpa only [runEnrolls] using ih2

/-- C1: starting from a store with no enrollments in the group, after any
sequence of `try_enroll` calls against that group the count never exceeds
the configured limit L — also at every prefix of the sequence — and the
final count equals min(L, number of calls that returned `true`). -/
theorem c1_capacity_invariant (db : DB) (ag : String) (reqs : List EnrollReq)
    (h0 : count_in_group db ag = 0) :
    count_in_group (runEnrolls ag db reqs).1 ag ≤ get_group_limit db ag ∧
    count_in_group (runEnrolls ag db reqs).1 ag =
      min (get_group_limit db ag) (runEnrolls ag db reqs).2 ∧
    (∀ pre post, reqs = pre ++ post →
      count_in_group (runEnrolls ag db pre).1 ag ≤ get_group_limit db ag) := by
  obtain ⟨hsum, hle⟩ := runEnrolls_count ag (get_group_limit db ag) reqs db rfl (by omega)
  refine ⟨hle, ?_, ?_⟩
  · rw [hsum, h0]
    have : (runEnrolls ag db reqs).2 ≤ get_group_limit db ag := by omega
    omega
  · intro pre post _
    exact (runEnrolls_count ag (get_group_limit db ag) pre db rfl (by omega)).2

/-- C1 witness: two admissions into a group with limit 1 — the count stays
at the limit and equals min(limit, successes). -/
theorem c1_capacity_invariant_witness :
    count_in_group dbOneSeat "9–11 лет" = 0 ∧
    (count_in_group (runEnrolls "9–11 лет" dbOneSeat twoReqs).1 "9–11 лет" ≤
        get_group_limit dbOneSeat "9–11 лет" ∧
      count_in_group (runEnrolls "9–11 лет" dbOneSeat twoReqs).1 "9–11 лет" =
        min (get_group_limit dbOneSeat "9–11 лет") (runEnrolls "9–11 лет" dbOneSeat twoReqs).2 ∧
      (∀ pre post, twoReqs = pre ++ post →
        count_in_group (runEnrolls "9–11 лет" dbOneSeat pre).1 "9–11 лет" ≤
          get_group_limit dbOneSeat "9–11 лет")) :=
  ⟨by decide, c1_capacity_invariant dbOneSeat "9–11 лет" twoReqs (by decide)⟩

/-- C2: for every call, if the current count of `enrollments` rows for the
requested age group is at least its limit, `try_enroll` returns `false` and
the store is unchanged; otherwise it appends exactly one row with the given
fields (leaving `group_limits` alone) and returns `true`. -/
theorem c2_try_enroll_contract (db : DB) (cf ag : String) (p : Option String)
    (uid : Int) (un : Option String) (now : String) :
    if get_group_limit db ag ≤ count_in_group db ag then
      (try_enroll db cf ag p uid un now).1 = false ∧
      (try_enroll db cf ag p uid un now).2.1 = db
    else
      (try_enroll db cf ag p uid un now).1 = true ∧
      (try_enroll db cf ag p uid un now).2.1.enrollments =
        db.enrollments ++ [⟨cf, ag, p, uid, un, now⟩] ∧
      (try_enroll db cf ag p uid un now).2.1.group_limits = db.group_limits := by
  by_cases h : get_group_limit db ag ≤ count_in_group db ag <;>
    simp [try_enroll, h]

/-- C3 (amended): in every `try_enroll` execution the count read and the
insert run on the transaction connection (the one that issued
`BEGIN IMMEDIATE`), but the limit is read by `get_group_limit` on a
separately opened connection, outside the write-exclusive transaction
scope — so it is not true that both reads happen inside that scope. -/
theorem c3_limit_read_outside_txn (db : DB) (cf ag : String) (p : Option String)
    (uid : Int) (un : Option String) (now : String) :
    (try_enroll db cf ag p uid un now).2.2.all countReadOnTxnConn = true ∧
    (try_enroll db cf ag p uid un now).2.2.all insertOnTxnConn = true ∧
    DbAction.beginImmediate DbConn.txn ∈ (try_enroll db cf ag p uid un now).2.2 ∧
    DbAction.readLimit DbConn.fresh ag ∈ (try_enroll db cf ag p uid un now).2.2 ∧
    (try_enroll db cf ag p uid un now).2.2.all limitReadOnTxnConn = false := by
  by_cases h : get_group_limit db ag ≤ count_in_group db ag <;>
    simp [try_enroll, h, countReadOnTxnConn, insertOnTxnConn, limitReadOnTxnConn]

/-- C3 counterexample: on a concrete call it is false that both the count
read and the limit read run on the transaction's connection — the limit
read runs on a separate connection. -/
theorem c3_counterexample :
    ¬ ((try_enroll dbOneSeat "Иван Петров" "9–11 лет" (some "+79001234567") 42
          (some "ivan") "2026-10-12T00:00:00").2.2.all countReadOnTxnConn = true ∧
       (try_enroll dbOneSeat "Иван Петров" "9–11 лет" (some "+79001234567") 42
          (some "ivan") "2026-10-12T00:00:00").2.2.all limitReadOnTxnConn = true) := by
  decide

/-- C6 (amended): in the phone step, a text that does not match the
handler's pattern `[\d\s\+\-\(\)]+` gets the invalid-phone re-prompt and
leaves the session unchanged; a matching text whose stripped form has
fewer than 10 digits gets the too-short re-prompt and leaves the session
unchanged; a matching text with at least 10 digits is stored with leading
and trailing whitespace stripped (interior formatting preserved) and the
session advances to the name step. -/
theorem c6_phone_validation (s : Session) (t : String) :
    if manual_phone_re t = false then
      phone_text_step s t = (s, [⟨invalidPhoneText, []⟩])
    else if digitCount (pyStrip t) < 10 then
      phone_text_step s t = (s, [⟨phoneTooShortText, []⟩])
    else
      phone_text_step s t =
        (⟨Step.awaitingName, { s.data with phone := some (pyStrip t) }⟩,
         [⟨namePromptText, []⟩]) := by
  by_cases h1 : manual_phone_re t
  · by_cases h2 : digitCount (pyStrip t) < 10 <;>
      simp [phone_text_step, set_phone_manual, h1, h2]
  · simp [phone_text_step, h1]

/-- C6 counterexample: the input " 1234567890 " contains 10 digits and is
accepted, but the stored phone is the stripped string, not the input
verbatim. -/
theorem c6_counterexample :
    10 ≤ digitCount " 1234567890 " ∧
    (phone_text_step phoneSession " 1234567890 ").1.step = Step.awaitingName ∧
    (phone_text_step phoneSession " 1234567890 ").1.data.phone ≠
      some " 1234567890 " := by
  decide

/-- Splitting a character list free of separators yields one piece: the
accumulator followed by the list. -/
theorem splitCharsAux_no_sep (p : Char → Bool) :
    ∀ (cs acc : List Char), cs.all (fun c => !p c) = true →
      splitCharsAux p cs acc = [String.mk (acc.reverse ++ cs)] := by
  intro cs
  induction cs with
  | nil => intro acc _; simp [splitCharsAux]
  | cons c cs ih =>
    intro acc h
    simp only [List.all_cons, Bool.and_eq_true, Bool.not_eq_true'] at h
    simp only [splitCharsAux, h.1, Bool.false_eq_true, if_false]
    rw [ih (c :: acc) h.2]
    simp

/-- Splitting a list that starts with a separator-free run followed by a
separator: the run becomes the first piece. -/
theorem splitCharsAux_append_sep (p : Char → Bool) (c0 : Char) (hc0 : p c0 = true) :
    ∀ (w rest acc : List Char), w.all (fun c => !p c) = true →
      splitCharsAux p (w ++ c0 :: rest) acc =
        String.mk (acc.reverse ++ w) :: splitCharsAux p rest [] := by
  intro w
  induction w with
  | nil => intro rest acc _; simp [splitCharsAux, hc0]
  | cons c cs ih =>
    intro rest acc h
    simp only [List.all_cons, Bool.and_eq_true, Bool.not_eq_true'] at h
    simp only [List.cons_append, splitCharsAux, h.1, Bool.false_eq_true, if_false,
      List.append_eq]
    rw [ih rest (c :: acc) h.2]
    simp

/-- Every piece produced by the splitter is free of separator characters
(provided the accumulator is). -/
theorem splitCharsAux_pieces (p : Char → Bool) :
    ∀ (cs acc : List Char), acc.all (fun c => !p c) = true →
      ∀ w ∈ splitCharsAux p cs acc, w.data.all (fun c => !p c) = true := by
  intro cs
  induction cs with
  | nil =>
    intro acc hacc w hw
    simp only [splitCharsAux, List.mem_singleton] at hw
    subst hw
    simpa [List.all_eq_true, List.mem_reverse] using
      fun c hc => (List.all_eq_true.mp hacc) c hc
  | cons c cs ih =>
    intro acc hacc w hw
    by_cases hc : p c
    · simp only [splitCharsAux, hc, if_true, List.mem_cons] at hw
      rcases hw with hw | hw
      · subst hw
        simpa [List.all_eq_true, List.mem_reverse] using
          fun d hd => (List.all_eq_true.mp hacc) d hd
      · exact ih [] (by simp) w hw
    · simp only [splitCharsAux, hc, Bool.false_eq_true, if_false] at hw
      refine ih (c :: acc) ?_ w hw
      simp only [List.all_cons, Bool.and_eq_true, Bool.not_eq_true']
      exact ⟨by simpa using hc, hacc⟩

/-- The whitespace tokens of a string contain no space character. -/
theorem pySplit_no_space (s : String) :
    ∀ w ∈ pySplit s, w.data.all (fun c => !(c == ' ')) = true := by
  intro w hw
  have hw' := (List.mem_filter.mp hw).1
  have h1 := splitCharsAux_pieces Char.isWhitespace s.data [] (by simp) w hw'
  rw [List.all_eq_true] at h1 ⊢
  intro c hc
  have h2 := h1 c hc
  simp only [Bool.not_eq_true'] at h2 ⊢
  cases hbe : (c == ' ') with
  | false => rfl
  | true =>
    have hsp : c = ' ' := by simpa using hbe
    rw [hsp] at h2
    exact absurd h2 (by decide)

/-- Splitting the space-join of space-free tokens on spaces recovers the
tokens. -/
theorem pySplitOnSpace_joinSpace :
    ∀ (toks : List String), toks ≠ [] →
      (∀ w ∈ toks, w.data.all (fun c => !(c == ' ')) = true) →
      pySplitOnSpace (joinSpace toks) = toks := by
  intro toks
  induction toks with
  | nil => intro h; exact absurd rfl h
  | cons t ts ih =>
    intro _ hw
    cases ts with
    | nil =>
      show pySplitOnSpace (joinSpace [t]) = [t]
      unfold pySplitOnSpace joinSpace
      rw [splitCharsAux_no_sep _ t.data [] (hw t (by simp))]
      simp
    | cons t2 ts2 =>
      show pySplitOnSpace (joinSpace (t :: t2 :: ts2)) = t :: t2 :: ts2
      have hdata : (joinSpace (t :: t2 :: ts2)).data =
          t.data ++ ' ' :: (joinSpace (t2 :: ts2)).data := by
        show (t ++ " " ++ joinSpace (t2 :: ts2)).data = _
        simp [String.data_append, List.append_assoc]
      unfold pySplitOnSpace
      rw [hdata,
        splitCharsAux_append_sep (fun c => c == ' ') ' ' (by simp) t.data _ []
          (hw t (by simp))]
      have ihr := ih (by simp) (fun w hwm => hw w (List.mem_cons_of_mem t hwm))
      unfold pySplitOnSpace at ihr
      rw [ihr]
      simp

/-- The parts `set_name_full` computes are exactly the whitespace tokens of
the input (or the single empty part when the input has none). -/
theorem set_name_full_parts (input : String) :
    pySplitOnSpace (joinSpace (pySplit input)) =
      if pySplit input = [] then [""] else pySplit input := by
  by_cases h : pySplit input = []
  · simp [h, joinSpace, pySplitOnSpace, splitCharsAux]
  · rw [if_neg h]
    exact pySplitOnSpace_joinSpace _ h (pySplit_no_space input)

/-- C7: an input with at least two whitespace tokens is stored as the
tokens joined by single spaces (first token, a space, the remaining tokens
joined) and the session advances to the age-group step; an input with
fewer than two tokens is rejected with a re-prompt and the session is
unchanged. -/
theorem c7_name_normalization (db : DB) (s : Session) (t : String) :
    if (pySplit t).length < 2 then
      set_name_full db s t = (s, [⟨nameRejectText, []⟩])
    else
      (set_name_full db s t).1.step = Step.awaitingAgeGroup ∧
      (set_name_full db s t).1.data.child_full = some (joinSpace (pySplit t)) ∧
      (set_name_full db s t).1.data.phone = s.data.phone := by
  have hparts := set_name_full_parts t
  rcases h : pySplit t with - | ⟨t0, ts⟩
  · rw [h, if_pos (by simp)] at hparts
    rw [if_pos (by simp [h])]
    unfold set_name_full
    simp only [h]
    rw [hparts]
  · cases ts with
    | nil =>
      rw [h, if_neg (by simp)] at hparts
      rw [if_pos (by simp [h])]
      unfold set_name_full
      simp only [h]
      rw [hparts]
    | cons t1 rest =>
      rw [h, if_neg (by simp)] at hparts
      rw [if_neg (by simp [h])]
      unfold set_name_full
      simp only [h]
      rw [hparts]
      by_cases hfull : AGE_GROUPS.all (fun ag => get_remaining db ag == 0) = true <;>
        simp [hfull, joinSpace]

/-- `try_enroll` on a full group: returns `false` with the store
unchanged. -/
theorem try_enroll_of_full (db : DB) (cf ag : String) (p : Option String)
    (uid : Int) (un : Option String) (now : String)
    (h : get_group_limit db ag ≤ count_in_group db ag) :
    try_enroll db cf ag p uid un now =
      (false, db,
        [DbAction.beginImmediate DbConn.txn, DbAction.readCount DbConn.txn ag,
         DbAction.readLimit DbConn.fresh ag, DbAction.commit DbConn.txn]) := by
  simp [try_enroll, h]

/-- `try_enroll` on a group with room: returns `true`, appending the row. -/
theorem try_enroll_of_room (db : DB) (cf ag : String) (p : Option String)
    (uid : Int) (un : Option String) (now : String)
    (h : count_in_group db ag < get_group_limit db ag) :
    try_enroll db cf ag p uid un now =
      (true, { db with enrollments := db.enrollments ++ [⟨cf, ag, p, uid, un, now⟩] },
        [DbAction.beginImmediate DbConn.txn, DbAction.readCount DbConn.txn ag,
         DbAction.readLimit DbConn.fresh ag,
         DbAction.insertRow DbConn.txn ⟨cf, ag, p, uid, un, now⟩,
         DbAction.commit DbConn.txn]) := by
  have h' : ¬ (count_in_group db ag ≥ get_group_limit db ag) := by omega
  simp [try_enroll, h']

/-- C4 (amended): when every age group has 0 remaining seats, both the
name-entry path and the failed-confirmation path send the apology with the
main-menu keyboard and present no age-group choice list — but neither
clears the session to Idle: after name entry the step is AwaitingAgeGroup,
and after a failed confirmation the session is left exactly as it was (in
AwaitingConfirmation). -/
theorem c4_all_full_behaviour (db : DB) (s1 : Session) (t : String)
    (s2 : Session) (uid : Int) (un : Option String) (now : String)
    (adminId : Option Int) (notifyOk : Bool) (cf ag : String)
    (hfull : ∀ g ∈ AGE_GROUPS, get_remaining db g = 0)
    (hlen : 2 ≤ (pySplit t).length)
    (hcf : s2.data.child_full = some cf) (hag : s2.data.age_group = some ag)
    (hagin : ag ∈ AGE_GROUPS) :
    set_name_full db s1 t =
      (⟨Step.awaitingAgeGroup,
        { s1.data with child_full := some (joinSpace (pySplit t)) }⟩,
       [⟨allFullNameText, main_menu_buttons⟩]) ∧
    confirm db s2 uid un now adminId notifyOk =
      some ⟨db, s2, [⟨allFullConfirmText, main_menu_buttons⟩], false, 0⟩ := by
  have hfullb : (AGE_GROUPS.all fun g => get_remaining db g == 0) = true := by
    rw [List.all_eq_true]
    intro g hg
    simpa using hfull g hg
  constructor
  · have hparts := set_name_full_parts t
    rcases h : pySplit t with - | ⟨t0, ts⟩
    · rw [h] at hlen; simp at hlen
    · cases ts with
      | nil => rw [h] at hlen; simp at hlen
      | cons t1 rest =>
        rw [h, if_neg (by simp)] at hparts
        unfold set_name_full
        simp only [h]
        rw [hparts]
        simp [hfullb, joinSpace]
  · have hle : get_group_limit db ag ≤ count_in_group db ag := by
      have hz := hfull ag hagin
      unfold get_remaining at hz
      omega
    simp [confirm, hcf, hag,
      try_enroll_of_full db cf ag s2.data.phone uid un now hle, hfullb]

/-- C4 counterexample: with every group full and a valid two-token name,
the session after `set_name_full` is in the age-group step, not Idle. -/
theorem c4_counterexample :
    (AGE_GROUPS.all fun g => get_remaining dbAllFull g == 0) = true ∧
    2 ≤ (pySplit "Иван Петров").length ∧
    (set_name_full dbAllFull ⟨Step.awaitingName, ⟨some "+79001234567", none, none⟩⟩
        "Иван Петров").1.step ≠ Step.idle := by
  decide

/-- C4 witness: the amended behaviour at a concrete all-full store. -/
theorem c4_all_full_behaviour_witness :
    set_name_full dbAllFull ⟨Step.awaitingName, ⟨some "+79001234567", none, none⟩⟩
        "Иван Петров" =
      (⟨Step.awaitingAgeGroup,
        ⟨some "+79001234567", some (joinSpace (pySplit "Иван Петров")), none⟩⟩,
       [⟨allFullNameText, main_menu_buttons⟩]) ∧
    confirm dbAllFull confirmSession 42 (some "ivan") "2026-10-12T00:00:00"
        (some 1) true =
      some ⟨dbAllFull, confirmSession, [⟨allFullConfirmText, main_menu_buttons⟩],
        false, 0⟩ :=
  c4_all_full_behaviour dbAllFull
    ⟨Step.awaitingName, ⟨some "+79001234567", none, none⟩⟩ "Иван Петров"
    confirmSession 42 (some "ivan") "2026-10-12T00:00:00" (some 1) true
    "Иван Петров" "9–11 лет" (by decide) (by decide) (by decide) (by decide)
    (by decide)

/-- C9: when `try_enroll` succeeds, the outcome visible to the user is the
same whether the admin notification send succeeds or fails: the committed
row stays in the store, the success message with the main menu is sent,
and the session is cleared to Idle; the failure only flips the
delivered flag and logs one warning. -/
theorem c9_notification_best_effort (db : DB) (s : Session) (uid : Int)
    (un : Option String) (now : String) (aid : Int) (cf ag : String)
    (hcf : s.data.child_full = some cf) (hag : s.data.age_group = some ag)
    (hcap : count_in_group db ag < get_group_limit db ag) :
    confirm db s uid un now (some aid) true =
      some ⟨{ db with enrollments :=
                db.enrollments ++ [⟨cf, ag, s.data.phone, uid, un, now⟩] },
        clearedSession, [⟨enrolledText, main_menu_buttons⟩], true, 0⟩ ∧
    confirm db s uid un now (some aid) false =
      some ⟨{ db with enrollments :=
                db.enrollments ++ [⟨cf, ag, s.data.phone, uid, un, now⟩] },
        clearedSession, [⟨enrolledText, main_menu_buttons⟩], false, 1⟩ := by
  constructor <;>
    simp [confirm, hcf, hag,
      try_enroll_of_room db cf ag s.data.phone uid un now hcap]

/-- C9 witness: a concrete successful admission with a configured admin. -/
theorem c9_notification_best_effort_witness :
    confirm dbOneSeat confirmSession 42 (some "ivan") "2026-10-12T00:00:00"
        (some 1) true =
      some ⟨{ dbOneSeat with enrollments := dbOneSeat.enrollments ++
          [⟨"Иван Петров", "9–11 лет", confirmSession.data.phone, 42,
            some "ivan", "2026-10-12T00:00:00"⟩] },
        clearedSession, [⟨enrolledText, main_menu_buttons⟩], true, 0⟩ ∧
    confirm dbOneSeat confirmSession 42 (some "ivan") "2026-10-12T00:00:00"
        (some 1) false =
      some ⟨{ dbOneSeat with enrollments := dbOneSeat.enrollments ++
          [⟨"Иван Петров", "9–11 лет", confirmSession.data.phone, 42,
            some "ivan", "2026-10-12T00:00:00"⟩] },
        clearedSession, [⟨enrolledText, main_menu_buttons⟩], false, 1⟩ :=
  c9_notification_best_effort dbOneSeat confirmSession 42 (some "ivan")
    "2026-10-12T00:00:00" 1 "Иван Петров" "9–11 лет" (by decide) (by decide)
    (by decide)

/-- Stripping only removes characters: every character of `pyStrip s` is a
character of `s`. -/
theorem pyStrip_subset (s : String) : ∀ c ∈ (pyStrip s).data, c ∈ s.data := by
  intro c hc
  have hd : (pyStrip s).data =
      ((s.data.dropWhile Char.isWhitespace).reverse.dropWhile
        Char.isWhitespace).reverse := rfl
  rw [hd, List.mem_reverse] at hc
  have h2 := (List.dropWhile_sublist _).subset hc
  rw [List.mem_reverse] at h2
  exact (List.dropWhile_sublist _).subset h2

/-- C5 (amended): every phone accepted by the manual-entry handler is
stored (stripped of outer whitespace) and is well formed — only digits and
formatting characters, at least 10 digits; the shared-contact path is
exempt: it stores the contact's phone number without any validation, so
the invariant does not hold for rows whose phone came from a contact. -/
theorem c5_manual_phone_wellformed (s : Session) (t : String)
    (hre : manual_phone_re t = true) (hd : 10 ≤ digitCount (pyStrip t)) :
    (set_phone_manual s t).1.step = Step.awaitingName ∧
    (set_phone_manual s t).1.data.phone = some (pyStrip t) ∧
    phone_ok (pyStrip t) = true := by
  have hnl : ¬ (digitCount (pyStrip t) < 10) := by omega
  refine ⟨by simp [set_phone_manual, hnl], by simp [set_phone_manual, hnl], ?_⟩
  unfold phone_ok
  rw [Bool.and_eq_true]
  constructor
  · rw [List.all_eq_true]
    intro c hc
    rw [manual_phone_re, Bool.and_eq_true] at hre
    exact List.all_eq_true.mp hre.2 c (pyStrip_subset t c hc)
  · simpa using hd

/-- C5 witness: the spec's own example phone is accepted and well formed. -/
theorem c5_manual_phone_wellformed_witness :
    manual_phone_re "+7 900 123-45-67" = true ∧
    10 ≤ digitCount (pyStrip "+7 900 123-45-67") ∧
    ((set_phone_manual phoneSession "+7 900 123-45-67").1.step = Step.awaitingName ∧
     (set_phone_manual phoneSession "+7 900 123-45-67").1.data.phone =
       some (pyStrip "+7 900 123-45-67") ∧
     phone_ok (pyStrip "+7 900 123-45-67") = true) :=
  ⟨by decide, by decide,
   c5_manual_phone_wellformed phoneSession "+7 900 123-45-67" (by decide) (by decide)⟩

/-- C5 counterexample: sharing one's own contact card with the 3-digit
phone number "123" is accepted without validation, flows through name and
age-group entry, and `confirm` persists an Enrollment row whose phone has
fewer than 10 digits — the claimed invariant fails on the resulting
store. -/
theorem c5_counterexample :
    contactSession.step = Step.awaitingName ∧
    contactSession.data.phone = some "123" ∧
    contactSession2.step = Step.awaitingAgeGroup ∧
    (set_age contactSession2 "9–11 лет").isSome = true ∧
    contactSession3.step = Step.awaitingConfirm ∧
    ((confirm dbOneSeat contactSession3 42 none "2026-10-12T00:00:00" none true).map
      (fun o => o.db.enrollments.map (fun r => r.phone))) = some [some "123"] ∧
    ((confirm dbOneSeat contactSession3 42 none "2026-10-12T00:00:00" none true).map
      (fun o => db_phones_ok o.db)) = some false := by
  decide

/-- C10: in the age-group step, any text equal to a label of `AGE_GROUPS`
moves the session to the confirmation step with that group recorded — the
handler consults no capacity information, so this happens even when the
chosen group has 0 remaining seats — while the dynamic keyboard offers
exactly the groups with remaining seats. -/
theorem c10_set_age_ignores_capacity (db : DB) (s : Session) (t cf : String)
    (ht : t ∈ AGE_GROUPS) (hcf : s.data.child_full = some cf)
    (_hfull : get_remaining db t = 0) :
    set_age s t =
      some (⟨Step.awaitingConfirm, { s.data with age_group := some t }⟩,
        [⟨previewText cf t (s.data.phone.getD "не указан"), confirm_buttons⟩]) ∧
    (∀ g : String, g ∈ age_kb_options db ↔ g ∈ AGE_GROUPS ∧ 0 < get_remaining db g) := by
  constructor
  · have hc : AGE_GROUPS.contains t = true := by
      simpa [List.elem_eq_mem] using ht
    simp [set_age, hc, hcf, ht]
  · intro g
    simp [age_kb_options, List.mem_filter]

/-- C10 witness: a concrete full group is still selectable. -/
theorem c10_set_age_ignores_capacity_witness :
    set_age ⟨Step.awaitingAgeGroup, ⟨some "+79001234567", some "Иван Петров", none⟩⟩
        "9–11 лет" =
      some (⟨Step.awaitingConfirm,
              ⟨some "+79001234567", some "Иван Петров", some "9–11 лет"⟩⟩,
        [⟨previewText "Иван Петров" "9–11 лет" "+79001234567", confirm_buttons⟩]) ∧
    (∀ g : String, g ∈ age_kb_options dbAllFull ↔
      g ∈ AGE_GROUPS ∧ 0 < get_remaining dbAllFull g) := by
  exact c10_set_age_ignores_capacity dbAllFull
    ⟨Step.awaitingAgeGroup, ⟨some "+79001234567", some "Иван Петров", none⟩⟩
    "9–11 лет" "Иван Петров" (by decide) (by decide) (by decide)

/-- A key is absent from an association list exactly when no pair carries
it. -/
theorem lookup_none_iff_not_key (gl : List (String × Nat)) (a : String) :
    gl.lookup a = none ↔ a ∉ gl.map Prod.fst := by
  rw [List.lookup_eq_none_iff]
  constructor
  · intro h hmem
    rcases List.mem_map.mp hmem with ⟨p, hp, hpa⟩
    have hne := h p hp
    rw [bne_iff_ne] at hne
    exact hne hpa.symm
  · intro h p hp
    rw [bne_iff_ne]
    exact fun he => h (List.mem_map.mpr ⟨p, hp, he.symm⟩)

/-- A present key is among the association list's keys. -/
theorem mem_key_of_lookup_isSome (gl : List (String × Nat)) (a : String)
    (h : (gl.lookup a).isSome = true) : a ∈ gl.map Prod.fst := by
  by_contra hmem
  rw [← lookup_none_iff_not_key] at hmem
  rw [hmem] at h
  simp at h

/-- After seeding a group, its row is present. -/
theorem lookup_seedGroup_self (gl : List (String × Nat)) (a : String) :
    ((seedGroup gl a).lookup a).isSome = true := by
  unfold seedGroup
  by_cases h : (gl.lookup a).isSome
  · rw [if_pos h]; exact h
  · rw [if_neg h, List.lookup_append]
    have h1 : List.lookup a [(a, DEFAULT_GROUP_LIMIT)] = some DEFAULT_GROUP_LIMIT := by
      simp [List.lookup]
    rw [h1]
    cases hgl : gl.lookup a <;> simp [Option.or]

/-- Seeding one group never removes another's row. -/
theorem lookup_seedGroup_mono (gl : List (String × Nat)) (a b : String)
    (h : (gl.lookup b).isSome = true) :
    ((seedGroup gl a).lookup b).isSome = true := by
  unfold seedGroup
  by_cases hs : (gl.lookup a).isSome
  · simpa [hs] using h
  · rw [if_neg hs, List.lookup_append]
    cases hgl : gl.lookup b with
    | none => rw [hgl] at h; simp at h
    | some v => simp [Option.or]

/-- Seeding never overwrites an existing row's value. -/
theorem lookup_seedGroup_preserve (gl : List (String × Nat)) (a b : String)
    (v : Nat) (h : gl.lookup b = some v) :
    (seedGroup gl a).lookup b = some v := by
  unfold seedGroup
  by_cases hs : (gl.lookup a).isSome
  · simpa [hs] using h
  · rw [if_neg hs, List.lookup_append, h]
    rfl

/-- Present rows survive the whole seeding fold. -/
theorem fold_seed_mono (l : List String) :
    ∀ (gl : List (String × Nat)) (a : String), (gl.lookup a).isSome = true →
      ((l.foldl seedGroup gl).lookup a).isSome = true := by
  induction l with
  | nil => intro gl a h; simpa using h
  | cons x xs ih => intro gl a h; exact ih _ a (lookup_seedGroup_mono gl x a h)

/-- Every seeded group has a row after the fold. -/
theorem fold_seed_present (l : List String) :
    ∀ (gl : List (String × Nat)) (a : String), a ∈ l →
      ((l.foldl seedGroup gl).lookup a).isSome = true := by
  induction l with
  | nil => intro gl a h; cases h
  | cons x xs ih =>
    intro gl a h
    simp only [List.foldl_cons]
    rcases List.mem_cons.mp h with h | h
    · subst h
      exact fold_seed_mono xs _ a (lookup_seedGroup_self gl a)
    · exact ih (seedGroup gl x) a h

/-- Existing rows keep their values through the fold. -/
theorem fold_seed_preserve (l : List String) :
    ∀ (gl : List (String × Nat)) (a : String) (v : Nat), gl.lookup a = some v →
      (l.foldl seedGroup gl).lookup a = some v := by
  induction l with
  | nil => intro gl a v h; simpa using h
  | cons x xs ih => intro gl a v h; exact ih _ a v (lookup_seedGroup_preserve gl x a v h)

/-- The seeding fold is the identity when every group already has a row. -/
theorem fold_seed_id (l : List String) :
    ∀ (gl : List (String × Nat)), (∀ a ∈ l, (gl.lookup a).isSome = true) →
      l.foldl seedGroup gl = gl := by
  induction l with
  | nil => intro gl _; rfl
  | cons x xs ih =>
    intro gl h
    simp only [List.foldl_cons]
    have hx : seedGroup gl x = gl := by
      unfold seedGroup
      rw [if_pos (h x (by simp))]
    rw [hx]
    exact ih gl fun a ha => h a (by simp [ha])

/-- Seeding keeps the keys duplicate-free. -/
theorem seed_keys_nodup (gl : List (String × Nat)) (a : String)
    (h : (gl.map Prod.fst).Nodup) :
    ((seedGroup gl a).map Prod.fst).Nodup := by
  unfold seedGroup
  by_cases hs : (gl.lookup a).isSome
  · simpa [hs] using h
  · rw [if_neg hs, List.map_append, List.nodup_append]
    refine ⟨h, by simp, ?_⟩
    intro x hx hx2
    simp at hx2
    subst hx2
    exact (lookup_none_iff_not_key gl x).mp
      (Option.not_isSome_iff_eq_none.mp hs) hx

/-- The seeding fold keeps the keys duplicate-free. -/
theorem fold_keys_nodup (l : List String) :
    ∀ (gl : List (String × Nat)), (gl.map Prod.fst).Nodup →
      ((l.foldl seedGroup gl).map Prod.fst).Nodup := by
  induction l with
  | nil => intro gl h; simpa using h
  | cons x xs ih => intro gl h; exact ih _ (seed_keys_nodup gl x h)

/-- Counting rows with a given key is counting the key. -/
theorem countP_key (gl : List (String × Nat)) (a : String) :
    gl.countP (fun r => r.1 == a) = (gl.map Prod.fst).count a := by
  rw [List.count, List.countP_map]
  rfl

/-- `init_db` is idempotent. -/
theorem init_db_idem (s : Store) : init_db (init_db s) = init_db s := by
  have hfold : AGE_GROUPS.foldl seedGroup
      (AGE_GROUPS.foldl seedGroup (s.group_limits.getD [])) =
      AGE_GROUPS.foldl seedGroup (s.group_limits.getD []) :=
    fold_seed_id AGE_GROUPS _ fun a ha =>
      fold_seed_present AGE_GROUPS (s.group_limits.getD []) a ha
  unfold init_db
  simp [hfold]

/-- Iterating `init_db` at least once equals running it once. -/
theorem init_db_iterate (s : Store) : ∀ N, 1 ≤ N → init_db^[N] s = init_db s := by
  intro N hN
  induction N with
  | zero => omega
  | succ n ih =>
    cases Nat.eq_zero_or_pos n with
    | inl h0 => subst h0; simp
    | inr hpos =>
      rw [Function.iterate_succ_apply', ih hpos]
      exact init_db_idem s

/-- C8: initialising the store N ≥ 1 times equals initialising it once;
after initialisation the enrollments table holds exactly the rows it
already had (created empty if absent), the age-group index exists, there
is exactly one `group_limits` row per known age group, and pre-existing
limit rows keep their values (the default is seeded only where a row was
absent).  The primary-key hypothesis says the pre-state has no duplicate
`group_limits` keys, which SQLite's PRIMARY KEY guarantees. -/
theorem c8_init_idempotent (s : Store) (N : Nat) (hN : 1 ≤ N)
    (hpk : ((s.group_limits.getD []).map Prod.fst).Nodup) :
    init_db^[N] s = init_db s ∧
    (init_db s).enrollments = some (s.enrollments.getD []) ∧
    (init_db s).idx_enrollments_age = true ∧
    (∀ ag ∈ AGE_GROUPS,
      ((init_db s).group_limits.getD []).countP (fun r => r.1 == ag) = 1) ∧
    (∀ ag v, (s.group_limits.getD []).lookup ag = some v →
      ((init_db s).group_limits.getD []).lookup ag = some v) := by
  refine ⟨init_db_iterate s N hN, rfl, rfl, ?_, ?_⟩
  · intro ag hag
    show (AGE_GROUPS.foldl seedGroup (s.group_limits.getD [])).countP
      (fun r => r.1 == ag) = 1
    rw [countP_key]
    have h1 := List.nodup_iff_count_le_one.mp
      (fold_keys_nodup AGE_GROUPS (s.group_limits.getD []) hpk) ag
    have h2 := List.count_pos_iff.mpr
      (mem_key_of_lookup_isSome _ ag
        (fold_seed_present AGE_GROUPS (s.group_limits.getD []) ag hag))
    omega
  · intro ag v h
    exact fold_seed_preserve AGE_GROUPS (s.group_limits.getD []) ag v h

/-- C8 witness: initialising the absent store twice. -/
theorem c8_init_idempotent_witness :
    1 ≤ 2 ∧
    ((emptyStore.group_limits.getD []).map Prod.fst).Nodup ∧
    (init_db^[2] emptyStore = init_db emptyStore ∧
     (init_db emptyStore).enrollments = some (emptyStore.enrollments.getD []) ∧
     (init_db emptyStore).idx_enrollments_age = true ∧
     (∀ ag ∈ AGE_GROUPS,
       ((init_db emptyStore).group_limits.getD []).countP (fun r => r.1 == ag) = 1) ∧
     (∀ ag v, (emptyStore.group_limits.getD []).lookup ag = some v →
       ((init_db emptyStore).group_limits.getD []).lookup ag = some v)) :=
  ⟨by decide, by simp [emptyStore],
   c8_init_idempotent emptyStore 2 (by decide) (by simp [emptyStore])⟩

end Academy
